import Mathlib

/-!
Verification development for the text-to-SQL answering service.

Python strings are embedded as `List Char`; the modules under scrutiny are
`app/safe_sql.py` (the read-only SQL guard) and `server/app/agent.py`
(result normalisation, presentation selection and the question-answering
orchestrator).  Pure Python functions become Lean functions; the external
collaborators (language model, retrieval store, database driver) become an
explicit environment record of call results.  Lowercasing and uppercasing
are modelled on the ASCII range, which is the range the guard and the
heuristics actually inspect.
-/

namespace TextToSql

/-- Whitespace characters recognised by the Python `str.strip` family. -/
def isPySpace (c : Char) : Bool :=
  c = ' ' || c = '\t' || c = '\n' || c = '\r' || c = '\x0b' || c = '\x0c'

/-- `str.lstrip()`. -/
def lstrip (l : List Char) : List Char := l.dropWhile isPySpace

/-- `str.rstrip()`. -/
def rstrip (l : List Char) : List Char := (l.reverse.dropWhile isPySpace).reverse

/-- `str.strip()`. -/
def pyStrip (l : List Char) : List Char := rstrip (lstrip l)

/-- `str.lower()` (ASCII range). -/
def toLowerL (l : List Char) : List Char := l.map Char.toLower

/-- `str.upper()` (ASCII range). -/
def toUpperL (l : List Char) : List Char := l.map Char.toUpper

/-- `str.startswith(pat)`. -/
def startsWithL : List Char → List Char → Bool
  | [], _ => true
  | _ :: _, [] => false
  | p :: ps, c :: cs => p = c && startsWithL ps cs

/-- Case-insensitive `startswith`, for regexes compiled with `re.IGNORECASE`. -/
def startsCI (pat l : List Char) : Bool := startsWithL (toLowerL pat) (toLowerL l)

/-- Python substring containment, `needle in hay`. -/
def containsSub (needle : List Char) : List Char → Bool
  | [] => needle = []
  | c :: cs => startsWithL needle (c :: cs) || containsSub needle cs

/-- `str.rstrip(";")`: remove every trailing semicolon. -/
def rstripSemis (l : List Char) : List Char :=
  (l.reverse.dropWhile (fun c => c = ';')).reverse

/-- Character class of the tokenizer regex `[a-zA-Z_]+`. -/
def isWordChar (c : Char) : Bool :=
  ('a' ≤ c && c ≤ 'z') || ('A' ≤ c && c ≤ 'Z') || c = '_'

/-- Worker for `re.findall(r"[a-zA-Z_]+", s)`: the accumulator holds the
current (reversed) token. -/
def tokensGo : List Char → List Char → List (List Char)
  | [], acc => if acc.isEmpty then [] else [acc.reverse]
  | c :: cs, acc =>
      if isWordChar c then tokensGo cs (c :: acc)
      else if acc.isEmpty then tokensGo cs []
      else acc.reverse :: tokensGo cs []

/-- `re.findall(r"[a-zA-Z_]+", s)`: maximal runs of letters and underscores. -/
def tokensL (l : List Char) : List (List Char) := tokensGo l []

/-! ## app/safe_sql.py -/

/-- `BLOCKLIST` from `app/safe_sql.py` (a Python set; order is irrelevant). -/
def BLOCKLIST : List (List Char) :=
  ["insert".data, "update".data, "delete".data, "drop".data, "truncate".data,
   "alter".data, "create".data, "grant".data, "revoke".data, "merge".data,
   "exec".data, "execute".data, "xp_".data, "sp_".data, "backup".data,
   "restore".data, "dbcc".data, "shutdown".data, "kill".data]

/-- The per-token test of the guard loop: blocked keyword, or an
`xp_` / `sp_` prefixed token. -/
def isBadToken (t : List Char) : Bool :=
  BLOCKLIST.contains t || startsWithL "xp_".data t || startsWithL "sp_".data t

/-- Skip past the first `*/`; `none` when no closer exists. -/
def dropToClose : List Char → Option (List Char)
  | [] => none
  | '*' :: '/' :: rest => some rest
  | _ :: rest => dropToClose rest

/-- Fuelled worker for `re.sub(r"/\*.*?\*/", "", sql, flags=re.S)`: each
lazy match removes a block comment up to the nearest closer. -/
def stripBlockGo : Nat → List Char → List Char
  | 0, l => l
  | fuel + 1, l =>
    match l with
    | [] => []
    | '/' :: '*' :: rest =>
        (match dropToClose rest with
         | some rest2 => stripBlockGo fuel rest2
         | none => '/' :: '*' :: stripBlockGo fuel rest)
    | c :: rest => c :: stripBlockGo fuel rest

/-- Drop up to (excluding) the next newline, as `--.*?$` under `re.M` does:
the dollar anchor sits just before the newline. -/
def dropUntilNewline : List Char → List Char
  | [] => []
  | '\n' :: rest => '\n' :: rest
  | _ :: rest => dropUntilNewline rest

/-- Fuelled worker for `re.sub(r"--.*?$", "", sql, flags=re.M)`. -/
def stripLineGo : Nat → List Char → List Char
  | 0, l => l
  | fuel + 1, l =>
    match l with
    | [] => []
    | '-' :: '-' :: rest => stripLineGo fuel (dropUntilNewline rest)
    | c :: rest => c :: stripLineGo fuel rest

/-- `strip_sql_comments` from `app/safe_sql.py`: block comments first, then
line comments. -/
def strip_sql_comments (sql : List Char) : List Char :=
  stripLineGo sql.length (stripBlockGo sql.length sql)

/-- The local `lowered` of `is_safe_readonly_sql`: comments stripped, then
`strip()`, then `lower()`. -/
def cleanedLower (sql : List Char) : List Char :=
  toLowerL (pyStrip (strip_sql_comments sql))

/-- `is_safe_readonly_sql` from `app/safe_sql.py`. -/
def is_safe_readonly_sql (sql : List Char) : Bool :=
  if sql = [] || pyStrip sql = [] then false
  else if (rstripSemis (cleanedLower sql)).contains ';' then false
  else if !(startsWithL "select".data (cleanedLower sql) ||
            startsWithL "with".data (cleanedLower sql)) then false
  else if (tokensL (cleanedLower sql)).any isBadToken then false
  else true

/-! ## Python value model

`PyObj` covers the Python values the agent manipulates: driver rows arrive
as lists/tuples/dicts of scalars, `Decimal` carries an exact numeral
(modelled as a rational), and `float` results are modelled as rationals with
the binary rounding of `float(...)` abstracted into the runtime record. -/

/-- A Python apostrophe character, written via its code point. -/
def squote : Char := Char.ofNat 39

inductive PyObj where
  | pNone
  | pBool (b : Bool)
  | pInt (n : Int)
  | pFloat (q : ℚ)
  | pDec (q : ℚ)
  | pStr (s : List Char)
  | pList (xs : List PyObj)
  | pTuple (xs : List PyObj)
  | pDict (entries : List ((List Char) × PyObj))

/-- A Python dict with string keys, in insertion order. -/
abbrev Row := List (List Char × PyObj)

/-- Abstracted pieces of the Python runtime used by the agent:
`floatOfDec` is `float()` applied to a `Decimal` (the IEEE rounding is not
modelled, only that some rational comes back), and `literalEval` is
`ast.literal_eval`, with `none` standing for a raised exception. -/
structure PyRuntime where
  floatOfDec : ℚ → ℚ
  literalEval : List Char → Option PyObj

/-! ## server/app/agent.py: _extract_column_names -/

/-- `\w` over the ASCII range. -/
def isPyWord (c : Char) : Bool := isWordChar c || c.isDigit

/-- The quote class `["\']` of the alias regex. -/
def isQuote (c : Char) : Bool := c = '"' || c = squote

/-- The CTE scan of `_extract_column_names`: walk the characters tracking
parenthesis depth and stop at the first `SELECT` found at depth zero past
position 0. -/
def findMainSelectGo : List Char → Int → Nat → Option Nat
  | [], _, _ => none
  | c :: rest, depth, i =>
    if c = '(' then findMainSelectGo rest (depth + 1) (i + 1)
    else if c = ')' then findMainSelectGo rest (depth - 1) (i + 1)
    else if depth = 0 && toUpperL ((c :: rest).take 6) = "SELECT".data && i > 0 then some i
    else findMainSelectGo rest depth (i + 1)

/-- Find the capture of the lazy group in `SELECT\s+(.*?)\s+FROM`: scan for
the first position opening a whitespace run that is immediately followed by
`FROM` (case-insensitively); the capture is everything before it. -/
def capTo : List Char → Option (List Char)
  | [] => none
  | c :: cs =>
    if isPySpace c && startsCI "from".data ((c :: cs).dropWhile isPySpace) then some []
    else (capTo cs).map (fun t => c :: t)

/-- `re.search(r"SELECT\s+(.*?)\s+FROM", s, re.IGNORECASE | re.DOTALL)`:
try every occurrence of `select`, require at least one whitespace after it,
and take the lazy capture up to the first `\s+FROM`. -/
def selectFromGo : List Char → Option (List Char)
  | [] => none
  | c :: cs =>
    if startsCI "select".data (c :: cs) then
      let after := ((c :: cs).drop 6)
      if (after.headD 'x' |> isPySpace) then
        match capTo (after.dropWhile isPySpace) with
        | some cap => some cap
        | none => selectFromGo cs
      else selectFromGo cs
    else selectFromGo cs

/-- `re.sub(r'^(TOP\s+\d+\s+|DISTINCT\s+)+', '', part, flags=re.IGNORECASE)`:
peel leading `TOP n` and `DISTINCT` prefixes. -/
def stripTopDistinctGo : Nat → List Char → List Char
  | 0, l => l
  | fuel + 1, l =>
    if startsCI "top".data l then
      let r1 := l.drop 3
      let r2 := r1.dropWhile isPySpace
      let r3 := r2.dropWhile Char.isDigit
      let r4 := r3.dropWhile isPySpace
      if r1.takeWhile isPySpace ≠ [] && r2.takeWhile Char.isDigit ≠ [] &&
          r3.takeWhile isPySpace ≠ [] then
        stripTopDistinctGo fuel r4
      else l
    else if startsCI "distinct".data l then
      let r1 := l.drop 8
      if r1.takeWhile isPySpace ≠ [] then stripTopDistinctGo fuel (r1.dropWhile isPySpace)
      else l
    else l

/-- The comma split of the SELECT clause, skipping commas nested inside
parentheses; entries are stripped as they are appended, and the trailing
entry is kept only when nonempty, exactly as in the Python loop. -/
def splitColsGo : List Char → Int → List Char → List (List Char)
  | [], _, cur => if pyStrip cur.reverse ≠ [] then [pyStrip cur.reverse] else []
  | c :: cs, depth, cur =>
    if c = '(' then splitColsGo cs (depth + 1) (c :: cur)
    else if c = ')' then splitColsGo cs (depth - 1) (c :: cur)
    else if c = ',' && depth = 0 then pyStrip cur.reverse :: splitColsGo cs depth []
    else splitColsGo cs depth (c :: cur)

/-- Attempt the alias regex `\s+AS\s+["\']?(\w+)["\']?\s*$` at the head of
the string. -/
def asAliasAt (l : List Char) : Option (List Char) :=
  if !(l.headD 'x' |> isPySpace) then none
  else
    let r1 := l.dropWhile isPySpace
    if startsCI "as".data r1 then
      let r2 := r1.drop 2
      if (r2.headD 'x' |> isPySpace) then
        let r3 := r2.dropWhile isPySpace
        let r4 := if isQuote (r3.headD 'x') then r3.drop 1 else r3
        let w := r4.takeWhile isPyWord
        let r5 := r4.dropWhile isPyWord
        let r6 := if isQuote (r5.headD 'x') then r5.drop 1 else r5
        if w ≠ [] && r6.all isPySpace then some w else none
      else none
    else none

/-- `re.search` of the alias regex: earliest start that completes a match. -/
def asAliasSearch : List Char → Option (List Char)
  | [] => none
  | c :: cs =>
    match asAliasAt (c :: cs) with
    | some w => some w
    | none => asAliasSearch cs

/-- `col.split('.')[-1]`. -/
def afterLastDot (l : List Char) : List Char :=
  (l.reverse.takeWhile (fun c => c ≠ '.')).reverse

/-- `re.sub(r'[\s\[\]]+', '', s)`: delete every whitespace or bracket. -/
def filterBrackets (l : List Char) : List Char :=
  l.filter (fun c => !(isPySpace c || c = '[' || c = ']'))

/-- `re.sub(r'^\w+\((.*)\)$', r'\1', col)`: strip one function wrapper when
the whole column expression has that shape (the dot in the pattern does not
cross newlines). -/
def stripFnWrap (col : List Char) : List Char :=
  let w := col.takeWhile isPyWord
  let r := col.dropWhile isPyWord
  if w ≠ [] && r.headD 'x' = '(' && col.getLast? = some ')' && r.length ≥ 2 &&
      !((r.drop 1).dropLast.contains '\n') then
    (r.drop 1).dropLast
  else col

/-- `str.split()` with no separator: maximal runs of non-whitespace. -/
def splitWsGo : List Char → List Char → List (List Char)
  | [], acc => if acc.isEmpty then [] else [acc.reverse]
  | c :: cs, acc =>
    if isPySpace c then
      if acc.isEmpty then splitWsGo cs [] else acc.reverse :: splitWsGo cs []
    else splitWsGo cs (c :: acc)

/-- The per-column naming rule of `_extract_column_names`; `idx` is the
number of names already produced, used for the `col_{len(names)}`
fallback. -/
def columnName (idx : Nat) (col : List Char) : List Char :=
  match asAliasSearch col with
  | some w => w
  | none =>
    if col.contains '.' && !col.contains '(' then
      filterBrackets (pyStrip (afterLastDot col))
    else
      let parts := splitWsGo (stripFnWrap col) []
      match parts.getLast? with
      | some last => if last.contains '.' then afterLastDot last else last
      | none => "col_".data ++ (Nat.repr idx).data

/-- `_extract_column_names` from `server/app/agent.py`. -/
def _extract_column_names (sql : List Char) : List (List Char) :=
  let sql_to_parse :=
    if startsWithL "WITH".data (toUpperL (pyStrip sql)) then
      match findMainSelectGo sql 0 0 with
      | some pos => sql.drop pos
      | none => sql
    else sql
  match selectFromGo sql_to_parse with
  | none => []
  | some cap =>
    let select_part := pyStrip cap
    let select_part := stripTopDistinctGo select_part.length select_part
    let cols := splitColsGo select_part 0 []
    cols.enum.map (fun p => columnName p.1 p.2)

/-! ## server/app/agent.py: _parse_raw_result -/

/-- `column_names = _extract_column_names(sql) if sql else []`. -/
def namesFor (sql : List Char) : List (List Char) :=
  if sql = [] then [] else _extract_column_names sql

/-- The `get_key` closure: named column when available, else `col_{index}`. -/
def getKey (names : List (List Char)) (i : Nat) : List Char :=
  if i < names.length then names.getD i [] else "col_".data ++ (Nat.repr i).data

/-- `float(val) if isinstance(val, Decimal) else val`. -/
def coerceDec (f : ℚ → ℚ) : PyObj → PyObj
  | PyObj.pDec q => PyObj.pFloat (f q)
  | v => v

/-- Python dict assignment `m[k] = v`: update in place when the key exists,
otherwise append at the end. -/
def dictSet : Row → List Char → PyObj → Row
  | [], k, v => [(k, v)]
  | (k0, v0) :: rest, k, v =>
    if k0 = k then (k, v) :: rest else (k0, v0) :: dictSet rest k v

/-- The inner `for i, val in enumerate(row)` loop building `row_dict`. -/
def rowFromCells (names : List (List Char)) (f : ℚ → ℚ) (cells : List PyObj) : Row :=
  cells.enum.foldl (fun m p => dictSet m (getKey names p.1) (coerceDec f p.2)) []

/-- The `for row in result` loop of the list branch: sequences become
keyed rows, dicts pass through, anything else is dropped. -/
def convertRows (names : List (List Char)) (f : ℚ → ℚ) : List PyObj → List Row
  | [] => []
  | PyObj.pList cells :: rest => rowFromCells names f cells :: convertRows names f rest
  | PyObj.pTuple cells :: rest => rowFromCells names f cells :: convertRows names f rest
  | PyObj.pDict m :: rest => m :: convertRows names f rest
  | _ :: rest => convertRows names f rest

/-- `re.sub(r"Decimal\('([^']+)'\)", r"\1", s)`: rewrite a wrapped decimal
literal to its bare numeral. -/
def decimalRewriteGo : Nat → List Char → List Char
  | 0, l => l
  | fuel + 1, l =>
    if startsWithL ("Decimal(".data ++ [squote]) l then
      let after := l.drop 9
      let cap := after.takeWhile (fun c => c ≠ squote)
      let rest := after.drop cap.length
      if cap ≠ [] && startsWithL [squote, ')'] rest then
        cap ++ decimalRewriteGo fuel (rest.drop 2)
      else
        match l with
        | [] => []
        | c :: cs => c :: decimalRewriteGo fuel cs
    else
      match l with
      | [] => []
      | c :: cs => c :: decimalRewriteGo fuel cs

def decimalRewrite (l : List Char) : List Char := decimalRewriteGo l.length l

/-- The string representations treated as empty results. -/
def emptyReprs : List (List Char) := [[], "[]".data, "()".data]

/-- Fuelled body of `_parse_raw_result`; fuel is spent only on the
string-reparse recursion, whose argument strictly shrinks under the real
`ast.literal_eval`. -/
def parseGo (rt : PyRuntime) (sql : List Char) : Nat → PyObj → List Row
  | _, PyObj.pNone => []
  | _, PyObj.pList rows => convertRows (namesFor sql) rt.floatOfDec rows
  | fuel, PyObj.pStr s =>
    if s = [] || emptyReprs.contains (pyStrip s) then []
    else
      match fuel with
      | 0 => []
      | fuel + 1 =>
        match rt.literalEval (decimalRewrite s) with
        | some obj => parseGo rt sql fuel obj
        | none => []
  | _, _ => []

/-- `_parse_raw_result` from `server/app/agent.py`. -/
def _parse_raw_result (rt : PyRuntime) (result : PyObj) (sql : List Char) : List Row :=
  parseGo rt sql (match result with | PyObj.pStr s => s.length + 1 | _ => 1) result

/-! ## server/app/agent.py: _determine_chart_config -/

structure ChartConfig where
  type : List Char
  x_key : List Char
  y_key : List Char
  title : List Char
  x_label : Option (List Char) := none
  y_label : Option (List Char) := none
deriving DecidableEq

/-- `dict.get(key)`: first matching entry, `None` when absent. -/
def rowGet : Row → List Char → Option PyObj
  | [], _ => none
  | (k, v) :: rest, key => if k = key then some v else rowGet rest key

/-- `isinstance(x, (int, float))`; `None` fails the test and Python `bool`
is a subclass of `int`, so it passes. -/
def isIntFloat : Option PyObj → Bool
  | some (PyObj.pInt _) => true
  | some (PyObj.pFloat _) => true
  | some (PyObj.pBool _) => true
  | _ => false

/-- `str.title()` over ASCII: a letter is uppercased after a non-letter and
lowercased after a letter. -/
def titleCaseGo : Bool → List Char → List Char
  | _, [] => []
  | prev, c :: cs =>
    if c.isAlpha then (if prev then c.toLower else c.toUpper) :: titleCaseGo true cs
    else c :: titleCaseGo false cs

/-- `key.replace('_', ' ').title()`: the axis-label derivation. -/
def titleLabel (k : List Char) : List Char :=
  titleCaseGo false (k.map (fun c => if c = '_' then ' ' else c))

def listIndicators : List (List Char) :=
  ["list".data, "show me".data, "who are".data, "which customers".data,
   "all customers".data, "all orders".data]

def aggMarkers : List (List Char) :=
  ["sum".data, "count".data, "avg".data, "total".data, "amount".data, "revenue".data]

def detailColumns : List (List Char) :=
  ["name".data, "email".data, "address".data, "phone".data, "country".data,
   "status".data, "date".data]

def trendWords : List (List Char) :=
  ["trend".data, "over time".data, "monthly".data, "daily".data, "yearly".data,
   "growth".data]

def rankWords : List (List Char) :=
  ["top".data, "most".data, "highest".data, "best".data, "ranking".data,
   "compare".data]

def distWords : List (List Char) :=
  ["distribution".data, "breakdown".data, "percentage".data, "share".data]

def moneyWords : List (List Char) :=
  ["revenue".data, "sales".data, "amount".data, "total".data]

def countWords : List (List Char) :=
  ["count".data, "number".data, "how many".data]

/-- The `is list query` test: any list-intent phrase occurs in the
lowercased question. -/
def listIntent (question_lower : List Char) : Bool :=
  listIndicators.any (fun ind => containsSub ind question_lower)

/-- The `has_numeric_agg` loop: some key holds a numeric sample in the
first row and its lowercased name contains an aggregation marker. -/
def hasNumericAgg (firstRow : Row) (keys : List (List Char)) : Bool :=
  keys.any (fun k =>
    isIntFloat (rowGet firstRow k) &&
    aggMarkers.any (fun a => containsSub a (toLowerL k)))

/-- The `detail_count` expression: how many keys look like entity-detail
columns. -/
def detailCount (keys : List (List Char)) : Nat :=
  (keys.filter (fun k =>
    detailColumns.any (fun d => containsSub d (toLowerL k)))).length

/-- The keyword cascade at the tail of `_determine_chart_config`, reached
once every guard has passed. -/
def chartCascade (question_lower x_key y_key : List Char) (data : List Row) :
    Option ChartConfig :=
  if trendWords.any (fun w => containsSub w question_lower) then
    some { type := "line".data, x_key := x_key, y_key := y_key,
           title := "Trend Over Time".data,
           x_label := some (titleLabel x_key), y_label := some (titleLabel y_key) }
  else if rankWords.any (fun w => containsSub w question_lower) then
    some { type := "bar".data, x_key := x_key, y_key := y_key,
           title := "Comparison".data,
           x_label := some (titleLabel x_key), y_label := some (titleLabel y_key) }
  else if distWords.any (fun w => containsSub w question_lower) then
    some { type := "pie".data, x_key := x_key, y_key := y_key,
           title := "Distribution".data }
  else if moneyWords.any (fun w => containsSub w question_lower) then
    some { type := "bar".data, x_key := x_key, y_key := y_key,
           title := "Revenue Analysis".data,
           x_label := some (titleLabel x_key), y_label := some (titleLabel y_key) }
  else if (countWords.any (fun w => containsSub w question_lower)) &&
      data.length > 1 then
    some { type := "bar".data, x_key := x_key, y_key := y_key,
           title := "Count Analysis".data,
           x_label := some (titleLabel x_key), y_label := some "Count".data }
  else if data.length ≥ 2 then
    some { type := "bar".data, x_key := x_key, y_key := y_key,
           title := "Query Results".data,
           x_label := some (titleLabel x_key), y_label := some (titleLabel y_key) }
  else none

/-- `_determine_chart_config` from `server/app/agent.py`. -/
def _determine_chart_config (question : List Char) (data : List Row) (_sql : List Char) :
    Option ChartConfig :=
  if data.isEmpty || data.length < 2 then none
  else if ((data.headD []).map Prod.fst).length < 2 then none
  else if listIntent (toLowerL question) &&
      !hasNumericAgg (data.headD []) ((data.headD []).map Prod.fst) then none
  else if ((data.headD []).map Prod.fst).length > 2 &&
      detailCount ((data.headD []).map Prod.fst) ≥ 2 then none
  else if !isIntFloat (rowGet (data.headD [])
      (((data.headD []).map Prod.fst).getD 1 [])) then none
  else chartCascade (toLowerL question) (((data.headD []).map Prod.fst).getD 0 [])
      (((data.headD []).map Prod.fst).getD 1 []) data

/-! ## server/app/agent.py: _generate_summary -/

/-- Truncation toward zero, as Python `int()` on a numeric value. -/
def ratTrunc (q : ℚ) : Int := if q < 0 then -((-q).floor) else q.floor

/-- Value of a nonempty all-digit numeral. -/
def digitsVal (l : List Char) : Option Nat :=
  if l ≠ [] && l.all Char.isDigit then
    some (l.foldl (fun acc c => acc * 10 + (c.toNat - '0'.toNat)) 0)
  else none

/-- Python `int(str)` on the plain numeral forms: optional surrounding
whitespace, an optional sign, then digits. -/
def parseIntPy (s : List Char) : Option Int :=
  match pyStrip s with
  | '+' :: r => (digitsVal r).map Int.ofNat
  | '-' :: r => (digitsVal r).map (fun n => -(n : Int))
  | r => (digitsVal r).map Int.ofNat

/-- Python `int(value)` on the value of a single-cell row; `none` models a
`ValueError`/`TypeError`. -/
def toIntOpt : PyObj → Option Int
  | PyObj.pInt n => some n
  | PyObj.pBool b => some (if b then 1 else 0)
  | PyObj.pFloat q => some (ratTrunc q)
  | PyObj.pDec q => some (ratTrunc q)
  | PyObj.pStr s => parseIntPy s
  | _ => none

def countCues : List (List Char) := ["how many".data, "number of".data, "count of".data]

/-- The templated counting sentence, noun inferred from the question. -/
def countSentence (question_lower : List Char) (count : Int) : List Char :=
  let noun := if containsSub "result".data question_lower then "result".data else "item".data
  let noun := if containsSub "table".data question_lower then "table".data else noun
  let noun := if containsSub "customer".data question_lower then "customer".data else noun
  let noun := if containsSub "order".data question_lower then "order".data else noun
  "There ".data ++ (if count = 1 then "is".data else "are".data) ++ [' '] ++
    (toString count).data ++ [' '] ++ noun ++
    (if count = 1 then [] else ['s']) ++ ['.']

/-- `_generate_summary` from `server/app/agent.py`.  The summarization model
call is the `llmSummary` argument (`error` models a raised exception); the
returned flag records whether that call was reached. -/
def _generate_summary (question : List Char) (_sql : List Char) (data : List Row)
    (llmSummary : Except (List Char) (List Char)) : List Char × Bool :=
  if data.isEmpty then ("No results found for your query.".data, false)
  else
    let templated : Option (List Char) :=
      if data.length = 1 && (data.headD []).length = 1 then
        let value := ((data.headD []).map Prod.snd).headD PyObj.pNone
        if countCues.any (fun c => containsSub c (toLowerL question)) then
          match (match value with | PyObj.pNone => some 0 | v => toIntOpt v) with
          | some count => some (countSentence (toLowerL question) count)
          | none => none
        else none
      else none
    match templated with
    | some s => (s, false)
    | none =>
      match llmSummary with
      | Except.ok s => (s, true)
      | Except.error _ =>
        ("Found ".data ++ (Nat.repr data.length).data ++ " result(s) for your query.".data,
         true)

/-! ## server/app/agent.py: SQL fence stripping -/

/-- `str.endswith(pat)`. -/
def endsWithL (pat l : List Char) : Bool := startsWithL pat.reverse l.reverse

/-- Split at the first triple backtick. -/
def findTicks : List Char → Option (List Char × List Char)
  | [] => none
  | c :: cs =>
    if startsWithL (List.replicate 3 '\x60') (c :: cs) then some ([], (c :: cs).drop 3)
    else (findTicks cs).map (fun p => (c :: p.1, p.2))

/-- The fenced-block marker `(three backticks)sql`. -/
def sqlFence : List Char := List.replicate 3 '\x60' ++ "sql".data

/-- Scan for a fenced `sql` block with a closing fence. -/
def extractSqlGo : List Char → Option (List Char)
  | [] => none
  | c :: cs =>
    if startsCI sqlFence (c :: cs) then
      match findTicks ((c :: cs).drop 6) with
      | some (content, _) => some content
      | none => extractSqlGo cs
    else extractSqlGo cs

/-- `extract_sql` from `server/app/agent.py`. -/
def extract_sql (text : List Char) : List Char :=
  match extractSqlGo text with
  | some content => pyStrip content
  | none => pyStrip text

/-- `normalize_sql` from `server/app/agent.py`: strip markdown fences. -/
def normalize_sql (sql : List Char) : List Char :=
  if sql = [] then sql
  else
    let s := pyStrip sql
    let s :=
      if startsWithL (List.replicate 3 '\x60') s then
        let r := s.drop 3
        let r := if startsCI "sql".data r then r.drop 3 else r
        r.dropWhile isPySpace
      else s
    let s :=
      if endsWithL (List.replicate 3 '\x60') s then
        rstrip (s.take (s.length - 3))
      else s
    pyStrip s

/-! ## server/app/agent.py: answer_question

The external collaborators are collected in `Env`: each field is the result
of one synchronous call (`Except.error` stands for a raised exception).
Retrieval context, conversation history and prompt texts only feed the
language-model calls, so they are absorbed into the `classify`, `generate`
and `summarize` oracles.  The second component of the result records
whether `db.run` was invoked. -/

structure QueryResponse where
  success : Bool
  summary : List Char
  sql : Option (List Char) := none
  data : Option (List Row) := none
  chart : Option ChartConfig := none
  error : Option (List Char) := none

structure Env where
  getLlm : Except (List Char) Unit
  classify : Except (List Char) (List Char)
  getDb : Except (List Char) Unit
  retrieve : Except (List Char) (List (List Char))
  generate : Except (List Char) (List Char)
  dbRun : Except (List Char) PyObj
  summarize : Except (List Char) (List Char)
  rt : PyRuntime

/-- `_is_database_question`: a classifier failure defaults to relevant. -/
def isRelevant (resp : Except (List Char) (List Char)) : Bool :=
  match resp with
  | Except.error _ => true
  | Except.ok content => startsWithL "YES".data (toUpperL (pyStrip content))

def emptyQuestionMsg : List Char := "Question cannot be empty".data

def outOfDomainSummary : List Char :=
  ("I can only answer questions about the database. Try asking about customers, " ++
   "orders, sales, or revenue. For example: \x27How many customers do we have?\x27 " ++
   "or \x27Show monthly revenue for the last 6 months\x27.").data

def genFailMsg : List Char := "Failed to generate SQL query from question".data

def unsafeSummaryMsg : List Char :=
  "The generated query contains potentially dangerous operations and was rejected.".data

def unsafeErrorMsg : List Char := "Unsafe SQL rejected".data

/-- The outer `except Exception` boundary of `answer_question`. -/
def errorResponse (e : List Char) : QueryResponse :=
  { success := false, summary := "An error occurred: ".data ++ e, error := some e }

/-- `answer_question` from `server/app/agent.py`; the Boolean result is true
exactly when `db.run` was invoked. -/
def answer_question (question : List Char) (env : Env) : QueryResponse × Bool :=
  if question = [] || pyStrip question = [] then
    ({ success := false, summary := emptyQuestionMsg, error := some emptyQuestionMsg }, false)
  else
    match env.getLlm with
    | Except.error e => (errorResponse e, false)
    | Except.ok _ =>
      if !(isRelevant env.classify) then
        ({ success := true, summary := outOfDomainSummary }, false)
      else
        match env.getDb with
        | Except.error e => (errorResponse e, false)
        | Except.ok _ =>
          match env.retrieve with
          | Except.error e => (errorResponse e, false)
          | Except.ok _docs =>
            match env.generate with
            | Except.error e => (errorResponse e, false)
            | Except.ok sqlRaw =>
              let sql := normalize_sql (extract_sql sqlRaw)
              if sql = [] then
                ({ success := false, summary := genFailMsg, error := some genFailMsg }, false)
              else if !(is_safe_readonly_sql sql) then
                ({ success := false, summary := unsafeSummaryMsg, sql := some sql,
                   error := some unsafeErrorMsg }, false)
              else
                match env.dbRun with
                | Except.error e =>
                  ({ success := false, summary := "Database query failed: ".data ++ e,
                     sql := some sql, error := some e }, true)
                | Except.ok result =>
                  let data := _parse_raw_result env.rt result sql
                  let summary := (_generate_summary question sql data env.summarize).1
                  let chart := _determine_chart_config question data sql
                  ({ success := true, summary := summary, sql := some sql,
                     data := some data, chart := chart }, true)

/-! ## Vocabulary used by the claim statements -/

/-- The mutating statement keywords enumerated by the spec for the
begins-with rejection rule. -/
def mutatingKeywords : List (List Char) :=
  ["insert".data, "update".data, "delete".data, "drop".data, "truncate".data,
   "alter".data, "create".data, "grant".data, "revoke".data, "exec".data]

/-- Modelled from the spec wording of the semicolon rule: strip a single
optional trailing semicolon (the code instead strips every trailing
semicolon). -/
def dropOneTrailingSemi (l : List Char) : List Char :=
  if l.getLast? = some ';' then l.dropLast else l

/-- A concrete runtime for witnesses: the decimal-to-float coercion is the
identity on the rational value and the literal parser always fails. -/
def rtDefault : PyRuntime := ⟨fun q => q, fun _ => none⟩

/-- An environment whose relevance classifier answers NO. -/
def envOffTopic : Env :=
  ⟨Except.ok (), Except.ok "NO".data, Except.ok (), Except.ok [],
   Except.ok "SELECT 1".data, Except.ok PyObj.pNone, Except.error [], rtDefault⟩

/-- An environment whose generator emits a mutating statement. -/
def envDropTable : Env :=
  ⟨Except.ok (), Except.ok "YES".data, Except.ok (), Except.ok [],
   Except.ok "DROP TABLE customers".data, Except.ok PyObj.pNone, Except.error [],
   rtDefault⟩

/-- The out-of-domain short-circuit answer of `answer_question`. -/
def outOfDomainResponse : QueryResponse :=
  { success := true, summary := outOfDomainSummary }

/-- The rows/error shape asserted by the spec for an `Answer`: rows are
present exactly on success and an error is present exactly on failure. -/
def rowsErrorInvariant (r : QueryResponse) : Prop :=
  (r.success = true ↔ r.data ≠ none) ∧ (r.success = false ↔ r.error ≠ none)

/-- The key sequence produced by building a Python dict by repeated
assignment: insertion order with duplicates collapsed onto their first
position. -/
def keysFold (acc : List (List Char)) (ks : List (List Char)) : List (List Char) :=
  ks.foldl (fun a k => if k ∈ a then a else a ++ [k]) acc

/-- A two-element raw result mixing a tuple row and a list row, both of
width two. -/
def elemsTwoWide : List PyObj :=
  [PyObj.pTuple [PyObj.pInt 1, PyObj.pInt 2],
   PyObj.pList [PyObj.pStr "x".data, PyObj.pDec 3]]

/-- Two-column rows used to exercise the chart selector. -/
def rowNameTotal1 : Row := [("name".data, PyObj.pStr "a".data), ("total".data, PyObj.pInt 5)]

def rowNameTotal2 : Row := [("name".data, PyObj.pStr "b".data), ("total".data, PyObj.pInt 7)]

/-! ## Helper lemmas -/

theorem startsWithL_head_eq {p l : List Char} (h : startsWithL p l = true) (hp : p ≠ []) :
    l.head? = p.head? := by
  cases p with
  | nil => exact absurd rfl hp
  | cons c cs =>
    cases l with
    | nil => simp [startsWithL] at h
    | cons d ds =>
      simp only [startsWithL, Bool.and_eq_true, decide_eq_true_eq] at h
      simp [h.1]

theorem stripBlockGo_of_space (fuel : Nat) :
    ∀ l : List Char, (∀ c ∈ l, isPySpace c = true) → stripBlockGo fuel l = l := by
  induction fuel with
  | zero => intro l _; rfl
  | succ n ih =>
    intro l h
    cases l with
    | nil => rfl
    | cons c cs =>
      simp only [stripBlockGo]
      split
      · rename_i heq
        simp at heq
      · rename_i rest heq
        injection heq with h1 h2
        have h3 := h c (List.mem_cons_self _ _)
        rw [h1] at h3
        exact absurd h3 (by decide)
      · rename_i c2 rest heq
        injection heq with h1 h2
        subst h1; subst h2
        rw [ih cs (fun d hd => h d (List.mem_cons_of_mem _ hd))]

theorem stripLineGo_of_space (fuel : Nat) :
    ∀ l : List Char, (∀ c ∈ l, isPySpace c = true) → stripLineGo fuel l = l := by
  induction fuel with
  | zero => intro l _; rfl
  | succ n ih =>
    intro l h
    cases l with
    | nil => rfl
    | cons c cs =>
      simp only [stripLineGo]
      split
      · rename_i heq
        simp at heq
      · rename_i rest heq
        injection heq with h1 h2
        have h3 := h c (List.mem_cons_self _ _)
        rw [h1] at h3
        exact absurd h3 (by decide)
      · rename_i c2 rest heq
        injection heq with h1 h2
        subst h1; subst h2
        rw [ih cs (fun d hd => h d (List.mem_cons_of_mem _ hd))]

theorem strip_sql_comments_of_space (l : List Char) (h : ∀ c ∈ l, isPySpace c = true) :
    strip_sql_comments l = l := by
  unfold strip_sql_comments
  rw [stripBlockGo_of_space _ l h, stripLineGo_of_space _ l h]

theorem all_space_of_pyStrip_nil {l : List Char} (h : pyStrip l = []) :
    ∀ c ∈ l, isPySpace c = true := by
  intro c hc
  have h1 : (l.dropWhile isPySpace).reverse.dropWhile isPySpace = [] := by
    have h2 := congrArg List.reverse h
    simpa [pyStrip, rstrip, lstrip] using h2
  have h3 : ∀ x ∈ l.dropWhile isPySpace, isPySpace x = true := by
    intro x hx
    exact List.dropWhile_eq_nil_iff.mp h1 x (by simpa using hx)
  have h4 : c ∈ l.takeWhile isPySpace ++ l.dropWhile isPySpace := by
    rw [List.takeWhile_append_dropWhile isPySpace l]; exact hc
  rcases List.mem_append.mp h4 with h5 | h5
  · exact List.mem_takeWhile_imp h5
  · exact h3 c h5

theorem cleanedLower_of_strip_nil {sql : List Char} (h : pyStrip sql = []) :
    cleanedLower sql = [] := by
  unfold cleanedLower
  rw [strip_sql_comments_of_space sql (all_space_of_pyStrip_nil h), h]
  rfl

theorem rstripSemis_contains_of_count0 {l : List Char} (h : l.count ';' = 0) :
    (rstripSemis l).contains ';' = false := by
  have hmem : ';' ∉ l := by
    intro hm; have := List.count_pos_iff.mpr hm; omega
  have hsub : (rstripSemis l).Sublist l := by
    have h1 : (l.reverse.dropWhile (fun c => c = ';')).Sublist l.reverse :=
      l.reverse.dropWhile_sublist _
    have h2 := h1.reverse
    simpa [rstripSemis] using h2
  have : ';' ∉ rstripSemis l := fun hm => hmem (hsub.subset hm)
  simpa using this

theorem rstripSemis_no_semi {l : List Char}
    (h1 : l.count ';' ≤ 1) (h2 : l.count ';' = 1 → l.getLast? = some ';') :
    (rstripSemis l).contains ';' = false := by
  rcases Nat.lt_or_ge (l.count ';') 1 with h | h
  · exact rstripSemis_contains_of_count0 (by omega)
  · have h1e : l.count ';' = 1 := by omega
    have hlast := h2 h1e
    have hsplit : l.dropLast ++ [';'] = l := List.dropLast_append_getLast? _ hlast
    have hcnt : l.dropLast.count ';' = 0 := by
      have h3 := congrArg (List.count ';') hsplit
      rw [List.count_append] at h3
      simp at h3
      omega
    have hr : rstripSemis l = rstripSemis l.dropLast := by
      conv_lhs => rw [← hsplit]
      simp [rstripSemis, List.reverse_append]
    rw [hr]
    exact rstripSemis_contains_of_count0 hcnt

/-! ## Claim C2 -/

/-- C2: `is_safe_readonly_sql` returns false on every empty or
whitespace-only input, on every input whose comment-stripped text begins
with a mutating statement keyword, and on every input whose
comment-stripped text contains a denylisted keyword (or an `xp_`/`sp_`
prefixed token) as a maximal run of letters and underscores.  The
None-equivalent of the Python signature is outside the string domain and is
caught by the same falsy test as the empty string. -/
theorem claim_C2 (sql : List Char)
    (h : pyStrip sql = [] ∨
      (∃ kw ∈ mutatingKeywords, startsWithL kw (cleanedLower sql) = true) ∨
      (∃ t ∈ tokensL (cleanedLower sql), isBadToken t = true)) :
    is_safe_readonly_sql sql = false := by
  unfold is_safe_readonly_sql
  split
  · rfl
  · rename_i h1
    split
    · rfl
    · rename_i h2
      split
      · rfl
      · rename_i h3
        split
        · rfl
        · rename_i h4
          exfalso
          rcases h with h0 | ⟨kw, hkw, hsw⟩ | ⟨t, ht, htb⟩
          · exact h1 (by simp [h0])
          · have himp : startsWithL "select".data (cleanedLower sql) = false →
                startsWithL "with".data (cleanedLower sql) = true := by
              simpa using h3
            have hor : startsWithL "select".data (cleanedLower sql) = true ∨
                startsWithL "with".data (cleanedLower sql) = true := by
              rcases Bool.eq_false_or_eq_true
                  (startsWithL "select".data (cleanedLower sql)) with hA | hA
              · exact Or.inl hA
              · exact Or.inr (himp hA)
            simp only [mutatingKeywords, List.mem_cons, List.not_mem_nil, or_false] at hkw
            rcases hkw with rfl | rfl | rfl | rfl | rfl | rfl | rfl | rfl | rfl | rfl <;>
              · have hh := startsWithL_head_eq hsw (by decide)
                rcases hor with h5 | h5 <;>
                  · have hh2 := startsWithL_head_eq h5 (by decide)
                    rw [hh] at hh2
                    exact absurd hh2 (by decide)
          · exact h4 (List.any_eq_true.mpr ⟨t, ht, htb⟩)

theorem claim_C2_witness :
    (pyStrip "   ".data = [] ∨
      (∃ kw ∈ mutatingKeywords, startsWithL kw (cleanedLower "   ".data) = true) ∨
      (∃ t ∈ tokensL (cleanedLower "   ".data), isBadToken t = true)) ∧
    is_safe_readonly_sql "   ".data = false :=
  ⟨Or.inl (by decide), claim_C2 "   ".data (Or.inl (by decide))⟩

/-! ## Claim C5 -/

/-- C5 counterexample: on `select 1;;` a semicolon still remains after
stripping a single trailing semicolon from the comment-stripped text, so
the claim demands rejection, yet the guard accepts it (the code strips
every trailing semicolon). -/
theorem claim_C5_cex :
    (dropOneTrailingSemi (pyStrip (strip_sql_comments "select 1;;".data))).contains ';' = true ∧
    is_safe_readonly_sql "select 1;;".data = true := by
  constructor
  · decide
  · decide

/-- C5 (amended): after comment stripping, any semicolon that remains once
every trailing semicolon has been stripped (i.e. any interior semicolon)
causes rejection; a run of trailing semicolons is tolerated. -/
theorem claim_C5_amended (sql : List Char)
    (h : (rstripSemis (cleanedLower sql)).contains ';' = true) :
    is_safe_readonly_sql sql = false := by
  simp only [is_safe_readonly_sql]
  split
  · rfl
  · rfl

theorem claim_C5_amended_witness :
    (rstripSemis (cleanedLower "select 1; drop table x".data)).contains ';' = true ∧
    is_safe_readonly_sql "select 1; drop table x".data = false :=
  ⟨by decide, claim_C5_amended "select 1; drop table x".data (by decide)⟩

/-! ## Claim C4 -/

/-- C4 counterexample: the raw string `select dr/*x*/op` starts with
`select`, contains no denylisted token and no semicolon at all, so the
claim demands acceptance; but comment stripping merges `dr` and `op` into
the blocked token `drop` and the guard rejects it. -/
theorem claim_C4_cex :
    (startsWithL "select".data "select dr/*x*/op".data = true ∧
     (∀ t ∈ tokensL "select dr/*x*/op".data, isBadToken t = false) ∧
     ("select dr/*x*/op".data).count ';' = 0) ∧
    is_safe_readonly_sql "select dr/*x*/op".data = false := by
  exact ⟨⟨by decide, by decide, by decide⟩, by decide⟩

/-- C4 (amended): for every string whose comment-stripped, trimmed,
lowercased text starts with `select` or `with`, whose tokens contain no
denylisted keyword and no `xp_`/`sp_` prefixed token, and which carries at
most one semicolon which, if present, is trailing, the guard accepts. -/
theorem claim_C4_amended (sql : List Char)
    (hstart : startsWithL "select".data (cleanedLower sql) = true ∨
              startsWithL "with".data (cleanedLower sql) = true)
    (htok : ∀ t ∈ tokensL (cleanedLower sql), isBadToken t = false)
    (hsemi : (cleanedLower sql).count ';' ≤ 1)
    (htrail : (cleanedLower sql).count ';' = 1 → (cleanedLower sql).getLast? = some ';') :
    is_safe_readonly_sql sql = true := by
  have hne : cleanedLower sql ≠ [] := by
    rcases hstart with h | h <;>
      · intro he; rw [he] at h; exact absurd h (by decide)
  have c1 : ¬((sql = [] || pyStrip sql = []) = true) := by
    intro hc
    simp only [Bool.or_eq_true, decide_eq_true_eq] at hc
    rcases hc with rfl | hc
    · exact hne rfl
    · exact hne (cleanedLower_of_strip_nil hc)
  have c2 : ¬(((rstripSemis (cleanedLower sql)).contains ';') = true) := by
    rw [rstripSemis_no_semi hsemi htrail]; simp
  have c3 : ¬((!(startsWithL "select".data (cleanedLower sql) ||
      startsWithL "with".data (cleanedLower sql))) = true) := by
    rcases hstart with h | h <;> simp [h]
  have c4 : ¬(((tokensL (cleanedLower sql)).any isBadToken) = true) := by
    intro hc
    rcases List.any_eq_true.mp hc with ⟨t, ht, htb⟩
    rw [htok t ht] at htb
    exact Bool.false_ne_true htb
  unfold is_safe_readonly_sql
  rw [if_neg c1, if_neg c2, if_neg c3, if_neg c4]

theorem claim_C4_amended_witness :
    ((startsWithL "select".data (cleanedLower "select name from users".data) = true ∨
      startsWithL "with".data (cleanedLower "select name from users".data) = true) ∧
     (∀ t ∈ tokensL (cleanedLower "select name from users".data), isBadToken t = false) ∧
     (cleanedLower "select name from users".data).count ';' ≤ 1) ∧
    is_safe_readonly_sql "select name from users".data = true :=
  ⟨⟨Or.inl (by decide), by decide, by decide⟩,
   claim_C4_amended "select name from users".data (Or.inl (by decide)) (by decide)
     (by decide) (by decide)⟩

/-! ## Claim C1 -/

/-- C1: whenever the pipeline reaches a generated candidate SQL that the
guard rejects, `db.run` is never invoked (second component `false`), and
the answer has `success = false`, carries the rejected SQL in its `sql`
field and surfaces the rejection in `summary` and `error`.  The hypotheses
describe the path on which a candidate exists: nonempty question, model
handle obtained, question classified relevant, database handle and
retrieval obtained, generation succeeded, and the fence-stripped SQL is
nonempty (an empty candidate short-circuits earlier without consulting the
guard). -/
theorem claim_C1 (question : List Char) (env : Env) (sqlRaw : List Char)
    (hq : ¬(question = [] ∨ pyStrip question = []))
    (hllm : env.getLlm = Except.ok ())
    (hrel : isRelevant env.classify = true)
    (hdb : env.getDb = Except.ok ())
    (hret : ∃ docs, env.retrieve = Except.ok docs)
    (hgen : env.generate = Except.ok sqlRaw)
    (hsql : normalize_sql (extract_sql sqlRaw) ≠ [])
    (hrej : is_safe_readonly_sql (normalize_sql (extract_sql sqlRaw)) = false) :
    answer_question question env =
      ({ success := false, summary := unsafeSummaryMsg,
         sql := some (normalize_sql (extract_sql sqlRaw)),
         data := none, chart := none, error := some unsafeErrorMsg }, false) := by
  obtain ⟨docs, hret⟩ := hret
  have hq2 : ¬((question = [] || pyStrip question = []) = true) := by simpa using hq
  unfold answer_question
  rw [if_neg hq2, hllm, hdb, hret, hgen, hrel]
  simp only [Bool.not_true, Bool.false_eq_true, if_false]
  rw [if_neg hsql, hrej]
  rfl

theorem claim_C1_witness :
    (is_safe_readonly_sql (normalize_sql (extract_sql "DROP TABLE customers".data)) = false) ∧
    answer_question "drop the customers table".data envDropTable =
      ({ success := false, summary := unsafeSummaryMsg,
         sql := some (normalize_sql (extract_sql "DROP TABLE customers".data)),
         data := none, chart := none, error := some unsafeErrorMsg }, false) :=
  ⟨by decide,
   claim_C1 "drop the customers table".data envDropTable "DROP TABLE customers".data
     (by decide) rfl rfl rfl ⟨[], rfl⟩ rfl (by decide) (by decide)⟩

/-! ## Claim C3 -/

/-- C3 counterexample: on an off-topic question the orchestrator returns
the out-of-domain answer, which has `success = true` but neither rows nor
error present, contradicting the claimed invariant that rows are present
exactly when `success` is true. -/
theorem claim_C3_cex :
    (answer_question "hello".data envOffTopic).1.success = true ∧
    (answer_question "hello".data envOffTopic).1.data = none ∧
    (answer_question "hello".data envOffTopic).1.error = none :=
  ⟨rfl, rfl, rfl⟩

/-- C3 (amended): every answer except the out-of-domain short circuit
satisfies the claimed shape: summary always present (enforced by the
record type), rows present exactly when `success` is true and an error
present exactly when it is false.  The out-of-domain answer instead has
`success = true` with neither rows nor error. -/
theorem claim_C3_amended (q : List Char) (env : Env) :
    (answer_question q env).1 = outOfDomainResponse ∨
      rowsErrorInvariant (answer_question q env).1 := by
  simp only [answer_question]
  repeat' split
  all_goals
    first
      | exact Or.inl rfl
      | exact Or.inr (by simp [rowsErrorInvariant, errorResponse])

/-! ## Row-building lemmas for the result normalizer -/

theorem dictSet_map_fst (m : Row) (k : List Char) (v : PyObj) :
    (dictSet m k v).map Prod.fst =
      if k ∈ m.map Prod.fst then m.map Prod.fst else m.map Prod.fst ++ [k] := by
  induction m with
  | nil => rfl
  | cons kv rest ih =>
    obtain ⟨k0, v0⟩ := kv
    by_cases h : k0 = k
    · subst h
      simp only [dictSet, if_pos rfl, List.map_cons, List.mem_cons, true_or, if_pos]
    · have h2 : ¬(k = k0) := fun hh => h hh.symm
      simp only [dictSet, if_neg h, List.map_cons, List.mem_cons, h2, false_or, ih]
      split <;> simp

theorem foldl_dictSet_map_fst (key : Nat → List Char) (f : ℚ → ℚ) :
    ∀ (pairs : List (Nat × PyObj)) (m : Row),
      ((pairs.foldl (fun m p => dictSet m (key p.1) (coerceDec f p.2)) m).map Prod.fst) =
        keysFold (m.map Prod.fst) (pairs.map (fun p => key p.1)) := by
  intro pairs
  induction pairs with
  | nil => intro m; simp [keysFold]
  | cons p ps ih =>
    intro m
    simp only [List.foldl_cons, List.map_cons]
    rw [ih (dictSet m (key p.1) (coerceDec f p.2))]
    unfold keysFold
    rw [List.foldl_cons, dictSet_map_fst]

theorem rowFromCells_map_fst (names : List (List Char)) (f : ℚ → ℚ) (cells : List PyObj) :
    (rowFromCells names f cells).map Prod.fst =
      keysFold [] ((List.range cells.length).map (getKey names)) := by
  unfold rowFromCells
  rw [foldl_dictSet_map_fst (getKey names) f cells.enum []]
  congr 1
  rw [← List.enum_map_fst cells, List.map_map]
  rfl

theorem dictSet_fresh {m : Row} {k : List Char} (v : PyObj) (h : k ∉ m.map Prod.fst) :
    dictSet m k v = m ++ [(k, v)] := by
  induction m with
  | nil => rfl
  | cons kv rest ih =>
    obtain ⟨k0, v0⟩ := kv
    simp only [List.map_cons, List.mem_cons] at h
    push_neg at h
    have hne : ¬(k0 = k) := fun hh => h.1 hh.symm
    simp only [dictSet, if_neg hne, List.cons_append]
    rw [ih h.2]

theorem foldl_dictSet_fresh (key : Nat → List Char) (f : ℚ → ℚ) :
    ∀ (pairs : List (Nat × PyObj)) (m : Row),
      (pairs.map (fun p => key p.1)).Nodup →
      (∀ p ∈ pairs, key p.1 ∉ m.map Prod.fst) →
      pairs.foldl (fun m p => dictSet m (key p.1) (coerceDec f p.2)) m =
        m ++ pairs.map (fun p => (key p.1, coerceDec f p.2)) := by
  intro pairs
  induction pairs with
  | nil => intro m _ _; simp
  | cons p ps ih =>
    intro m hnd hfresh
    simp only [List.map_cons, List.nodup_cons] at hnd
    simp only [List.foldl_cons]
    rw [dictSet_fresh _ (hfresh p (List.mem_cons_self _ _))]
    rw [ih (m ++ [(key p.1, coerceDec f p.2)]) hnd.2 ?_]
    · simp
    · intro q hq
      simp only [List.map_append, List.mem_append, List.map_cons, List.map_nil,
        List.mem_singleton, not_or]
      refine ⟨hfresh q (List.mem_cons_of_mem _ hq), ?_⟩
      intro he
      exact hnd.1 (he ▸ List.mem_map_of_mem (fun p => key p.1) hq)

theorem rowFromCells_of_nodup (names : List (List Char)) (f : ℚ → ℚ) (cells : List PyObj)
    (h : ((List.range cells.length).map (getKey names)).Nodup) :
    rowFromCells names f cells =
      cells.enum.map (fun p => (getKey names p.1, coerceDec f p.2)) := by
  unfold rowFromCells
  rw [foldl_dictSet_fresh (getKey names) f cells.enum [] ?_ ?_]
  · simp
  · rw [show cells.enum.map (fun p => getKey names p.1) =
        (List.range cells.length).map (getKey names) from by
      rw [← List.enum_map_fst cells, List.map_map]; rfl]
    exact h
  · intro p _; simp

theorem convertRows_map_pTuple (names : List (List Char)) (f : ℚ → ℚ) :
    ∀ ts : List (List PyObj),
      convertRows names f (ts.map PyObj.pTuple) = ts.map (rowFromCells names f) := by
  intro ts
  induction ts with
  | nil => rfl
  | cons t rest ih => simp [convertRows, ih]

/-! ## Claim C6 -/

/-- C6 counterexample: a list result whose tuples have different widths
produces rows with different key sequences, refuting the universally
quantified uniform-keys invariant. -/
theorem claim_C6_cex :
    ((_parse_raw_result rtDefault
        (PyObj.pList [PyObj.pTuple [PyObj.pInt 1],
                      PyObj.pTuple [PyObj.pInt 1, PyObj.pInt 2]]) []).map
      (fun r => r.map Prod.fst)) =
      [["col_0".data], ["col_0".data, "col_1".data]] ∧
    ¬(["col_0".data] : List (List Char)) = ["col_0".data, "col_1".data] := by
  constructor
  · rfl
  · decide

/-- C6 (amended): for a raw result that is a list of sequence rows all of
the same width, every pair of normalized rows shares the same keys in the
same order (the key at each position being the derived column name or the
positional placeholder). -/
theorem claim_C6_amended (rt : PyRuntime) (sql : List Char) (elems : List PyObj) (n : Nat)
    (h : ∀ e ∈ elems, ∃ cells, (e = PyObj.pTuple cells ∨ e = PyObj.pList cells) ∧
          cells.length = n) :
    ∀ r1 ∈ _parse_raw_result rt (PyObj.pList elems) sql,
      ∀ r2 ∈ _parse_raw_result rt (PyObj.pList elems) sql,
        r1.map Prod.fst = r2.map Prod.fst := by
  have key : ∀ r ∈ _parse_raw_result rt (PyObj.pList elems) sql,
      r.map Prod.fst = keysFold [] ((List.range n).map (getKey (namesFor sql))) := by
    intro r hr
    rw [show _parse_raw_result rt (PyObj.pList elems) sql =
        convertRows (namesFor sql) rt.floatOfDec elems from rfl] at hr
    revert hr
    revert h
    induction elems with
    | nil => intro _ hr; simp [convertRows] at hr
    | cons e es ih =>
      intro h hr
      obtain ⟨cells, hshape, hlen⟩ := h e (List.mem_cons_self _ _)
      have htail := fun x hx => h x (List.mem_cons_of_mem _ hx)
      rcases hshape with rfl | rfl
      · simp only [convertRows] at hr
        rcases List.mem_cons.mp hr with rfl | hr2
        · rw [rowFromCells_map_fst, hlen]
        · exact ih htail hr2
      · simp only [convertRows] at hr
        rcases List.mem_cons.mp hr with rfl | hr2
        · rw [rowFromCells_map_fst, hlen]
        · exact ih htail hr2
  intro r1 h1 r2 h2
  rw [key r1 h1, key r2 h2]

theorem claim_C6_witness :
    (∀ e ∈ elemsTwoWide, ∃ cells,
        (e = PyObj.pTuple cells ∨ e = PyObj.pList cells) ∧ cells.length = 2) ∧
    (∀ r1 ∈ _parse_raw_result rtDefault (PyObj.pList elemsTwoWide) [],
      ∀ r2 ∈ _parse_raw_result rtDefault (PyObj.pList elemsTwoWide) [],
        r1.map Prod.fst = r2.map Prod.fst) := by
  have h : ∀ e ∈ elemsTwoWide, ∃ cells,
      (e = PyObj.pTuple cells ∨ e = PyObj.pList cells) ∧ cells.length = 2 := by
    intro e he
    simp only [elemsTwoWide, List.mem_cons, List.not_mem_nil, or_false] at he
    rcases he with rfl | rfl
    · exact ⟨_, Or.inl rfl, rfl⟩
    · exact ⟨_, Or.inr rfl, rfl⟩
  exact ⟨h, claim_C6_amended rtDefault [] elemsTwoWide 2 h⟩

/-! ## Claim C7 -/

/-- C7 counterexample: with SQL `SELECT a, a FROM t` both positions derive
the key `a`, the dict write for position 1 overwrites position 0, and
reading the row values back yields only the second cell, not the original
tuple. -/
theorem claim_C7_cex :
    ((_parse_raw_result rtDefault
        (PyObj.pList [PyObj.pTuple [PyObj.pInt 1, PyObj.pInt 2]])
        "SELECT a, a FROM t".data).map (fun r => r.map Prod.snd)) ≠
      [[PyObj.pInt 1, PyObj.pInt 2]] := by
  intro h
  have h2 : ([[PyObj.pInt 2]] : List (List PyObj)) = [[PyObj.pInt 1, PyObj.pInt 2]] := h
  have h3 := congrArg (fun l => (l.headD []).length) h2
  simp at h3

/-- C7 (amended): for a raw result that is a list of tuples and an SQL
whose derived column names are pairwise distinct over each tuple width,
normalizing and reading the field values back recovers the original cell
values in order, except that `Decimal` cells come back through the float
coercion. -/
theorem claim_C7_amended (rt : PyRuntime) (sql : List Char) (tuples : List (List PyObj))
    (h : ∀ cells ∈ tuples, ((List.range cells.length).map (getKey (namesFor sql))).Nodup) :
    ((_parse_raw_result rt (PyObj.pList (tuples.map PyObj.pTuple)) sql).map
      (fun r => r.map Prod.snd)) =
      tuples.map (fun cells => cells.map (coerceDec rt.floatOfDec)) := by
  rw [show _parse_raw_result rt (PyObj.pList (tuples.map PyObj.pTuple)) sql =
      convertRows (namesFor sql) rt.floatOfDec (tuples.map PyObj.pTuple) from rfl]
  rw [convertRows_map_pTuple, List.map_map]
  apply List.map_congr_left
  intro cells hc
  simp only [Function.comp_apply]
  rw [rowFromCells_of_nodup _ _ _ (h cells hc), List.map_map]
  have hcomp : (Prod.snd ∘ fun p : Nat × PyObj =>
      (getKey (namesFor sql) p.1, coerceDec rt.floatOfDec p.2)) =
      (coerceDec rt.floatOfDec ∘ Prod.snd) := rfl
  rw [hcomp, ← List.map_map, List.enum_map_snd]

theorem claim_C7_witness :
    (∀ cells ∈ [[PyObj.pInt 1, PyObj.pDec 2]],
        ((List.range cells.length).map (getKey (namesFor "SELECT a, b FROM t".data))).Nodup) ∧
    ((_parse_raw_result rtDefault
        (PyObj.pList ([[PyObj.pInt 1, PyObj.pDec 2]].map PyObj.pTuple))
        "SELECT a, b FROM t".data).map (fun r => r.map Prod.snd)) =
      [[PyObj.pInt 1, PyObj.pDec 2]].map
        (fun cells => cells.map (coerceDec rtDefault.floatOfDec)) := by
  have h : ∀ cells ∈ [[PyObj.pInt 1, PyObj.pDec 2]],
      ((List.range cells.length).map (getKey (namesFor "SELECT a, b FROM t".data))).Nodup := by
    intro cells hc
    simp only [List.mem_singleton] at hc
    subst hc
    decide
  exact ⟨h, claim_C7_amended rtDefault "SELECT a, b FROM t".data _ h⟩

/-! ## Claim C10 -/

/-- C10: on a list raw result the normalizer keeps exactly the sequence
rows (keyed, with top-level Decimal cells coerced to float) and the dict
rows (passed through unchanged), drops every other element, and never
produces more rows than the input list has elements. -/
theorem claim_C10 (rt : PyRuntime) (sql : List Char) (elems : List PyObj) :
    _parse_raw_result rt (PyObj.pList elems) sql =
      elems.filterMap (fun e =>
        match e with
        | PyObj.pList cells => some (rowFromCells (namesFor sql) rt.floatOfDec cells)
        | PyObj.pTuple cells => some (rowFromCells (namesFor sql) rt.floatOfDec cells)
        | PyObj.pDict m => some m
        | _ => none) ∧
    (_parse_raw_result rt (PyObj.pList elems) sql).length ≤ elems.length := by
  have h1 : _parse_raw_result rt (PyObj.pList elems) sql =
      elems.filterMap (fun e =>
        match e with
        | PyObj.pList cells => some (rowFromCells (namesFor sql) rt.floatOfDec cells)
        | PyObj.pTuple cells => some (rowFromCells (namesFor sql) rt.floatOfDec cells)
        | PyObj.pDict m => some m
        | _ => none) := by
    rw [show _parse_raw_result rt (PyObj.pList elems) sql =
        convertRows (namesFor sql) rt.floatOfDec elems from rfl]
    induction elems with
    | nil => rfl
    | cons e es ih => cases e <;> simp [convertRows, List.filterMap_cons, ih]
  exact ⟨h1, by rw [h1]; exact List.length_filterMap_le _ _⟩

/-! ## Claim C8 -/

/-- C8: a chart recommendation is only emitted when there are at least two
rows, the first row has at least two fields, and the sampled value of the
second field of the first row passes the numeric test; consequently a
single row, or a first row with fewer than two fields, yields no chart
regardless of the question text. -/
theorem claim_C8 :
    (∀ q (data : List Row) sql cfg, _determine_chart_config q data sql = some cfg →
       2 ≤ data.length ∧ 2 ≤ ((data.headD []).map Prod.fst).length ∧
       isIntFloat (rowGet (data.headD [])
         (((data.headD []).map Prod.fst).getD 1 [])) = true) ∧
    (∀ q (data : List Row) sql, data.length < 2 →
       _determine_chart_config q data sql = none) ∧
    (∀ q (r : Row) rest sql, (r.map Prod.fst).length < 2 →
       _determine_chart_config q (r :: rest) sql = none) := by
  refine ⟨?_, ?_, ?_⟩
  · intro q data sql cfg h
    simp only [_determine_chart_config] at h
    split at h
    · exact absurd h (by simp)
    · rename_i h1
      split at h
      · exact absurd h (by simp)
      · rename_i h2
        split at h
        · exact absurd h (by simp)
        · split at h
          · exact absurd h (by simp)
          · split at h
            · exact absurd h (by simp)
            · rename_i h5
              simp only [Bool.or_eq_true, decide_eq_true_eq, not_or] at h1
              simp only [decide_eq_true_eq, not_lt] at h2
              simp only [Bool.not_eq_true', Bool.not_eq_false] at h5
              exact ⟨by omega, h2, h5⟩
  · intro q data sql h
    simp only [_determine_chart_config]
    rw [if_pos (by simp [h])]
  · intro q r rest sql h
    simp only [_determine_chart_config]
    split
    · rfl
    · rw [if_pos (show ((((r :: rest).headD []).map Prod.fst).length < 2) from h)]

theorem claim_C8_witness :
    (_determine_chart_config "top customers".data [rowNameTotal1, rowNameTotal2] [] =
      some { type := "bar".data, x_key := "name".data, y_key := "total".data,
             title := "Comparison".data, x_label := some "Name".data,
             y_label := some "Total".data }) ∧
    (2 ≤ ([rowNameTotal1, rowNameTotal2] : List Row).length ∧
     2 ≤ ((([rowNameTotal1, rowNameTotal2] : List Row).headD []).map Prod.fst).length ∧
     isIntFloat (rowGet (([rowNameTotal1, rowNameTotal2] : List Row).headD [])
       (((([rowNameTotal1, rowNameTotal2] : List Row).headD []).map
         Prod.fst).getD 1 [])) = true) :=
  ⟨rfl, claim_C8.1 "top customers".data [rowNameTotal1, rowNameTotal2] [] _ rfl⟩

/-! ## Claim C9 -/

/-- C9: for the counting question with SQL
`SELECT COUNT(*) AS total FROM customers` and raw result `[(42,)]`,
normalization yields the single row `total ↦ 42` (for every runtime, since
no Decimal or string reparse is involved), and the summary step returns
exactly the templated sentence without reaching the summarization model
call, whatever that call would return. -/
theorem claim_C9 :
    (∀ rt : PyRuntime,
      _parse_raw_result rt (PyObj.pList [PyObj.pTuple [PyObj.pInt 42]])
        "SELECT COUNT(*) AS total FROM customers".data =
        [[("total".data, PyObj.pInt 42)]]) ∧
    (∀ llmSummary : Except (List Char) (List Char),
      _generate_summary "How many customers do we have?".data
        "SELECT COUNT(*) AS total FROM customers".data
        [[("total".data, PyObj.pInt 42)]] llmSummary =
        ("There are 42 customers.".data, false)) := by
  constructor
  · intro rt; rfl
  · intro llmSummary; rfl

end TextToSql
